import Mathlib

/-!
Shallow embedding of PyGaze 0.4 `libsound.py` (the `Sound` class: waveform
synthesis in `Sound.__init__`, the oscillators `Sound.saw`, `Sound.square`,
`Sound.white_noise`, and the stereo panning operation `Sound.pan`).

The source is Python 2 code. Modelling conventions used throughout:

* Python 2 `/` on two `int`s is floor division; on ints it is modelled by
  `Nat` division or `Int.fdiv`.
* Python `float` arithmetic is modelled exactly over `ℚ` (the claims at stake
  are structural: lengths, branch guards, sign/bound facts, exact integer
  truncations; none depends on IEEE rounding at the modelled inputs).
* Python `int(x)` truncates toward zero: `truncQ`.
* Python float `x % y` is `x - y * floor (x / y)`: `qmod`.
* Storing a Python int into a numpy `int16` array wraps modulo 2^16: `wrap16`.
* A Python `ZeroDivisionError` is modelled by `Except.error PyErr.zeroDivision`;
  `Sound.__init__` raises it when `freq` is zero (line 99, `float(sps/freq)`),
  and at the first loop iteration when the computed cycles-per-sample value is
  the float `0.0` (line 103, `i % cps` with `cps = 0.0`), which happens for an
  integer `freq` larger than the sample rate.
-/

/-- Truncation toward zero of an exact rational: models Python `int(x)`
applied to a float value (libsound.py lines 104, 106, 108, 200, 202). -/
def truncQ (q : ℚ) : ℤ := if q < 0 then ⌈q⌉ else ⌊q⌋

/-- Python float modulo: `x % y = x - y * floor(x / y)` (sign of the divisor),
models `i % cps` at line 103 and `phase % math.pi` at line 128. -/
def qmod (x y : ℚ) : ℚ := x - y * ⌊x / y⌋

/-- Cast of an arbitrary integer into a signed 16-bit value, as performed by a
store into a numpy `int16` array (lines 112, 204-205): two's-complement
wraparound modulo 2^16. -/
def wrap16 (x : ℤ) : ℤ := (x + 32768) % 65536 - 32768

/-- Amplitude ceiling `amp = 32767 / 2` (line 97; Python 2 integer division,
so `amp = 16383`). -/
def amp : ℤ := 32767 / 2

/-- Frequency argument of `Sound.__init__`: the docstring (line 54) allows
"either float or integer", and Python 2 division behaves differently on the
two, so the embedding keeps the tag. -/
inductive Freq
  | int (n : ℤ)
  | real (q : ℚ)
deriving DecidableEq

/-- Whether the frequency value equals zero (the input on which line 99
`float(sps/freq)` raises `ZeroDivisionError`). -/
def Freq.isZero : Freq → Bool
  | Freq.int n => n == 0
  | Freq.real q => q == 0

/-- Line 99, `cps = float(sps/freq)`: for an integer `freq` the inner
`sps/freq` is Python 2 integer floor division, only then converted to float;
for a float `freq` it is exact float division. -/
def cyclesPerSample (sps : ℕ) : Freq → ℚ
  | Freq.int n => ((Int.fdiv (sps : ℤ) n : ℤ) : ℚ)
  | Freq.real q => (sps : ℚ) / q

/-- Lines 95-96: `attack * SOUNDSAMPLINGFREQUENCY / 1000` (and likewise for
`decay`), Python 2 integer division. -/
def msToSamples (ms sps : ℕ) : ℕ := ms * sps / 1000

/-- Line 100: `slen = SOUNDSAMPLINGFREQUENCY * length / 1000`, the number of
output samples, Python 2 integer division. -/
def slenOf (sps len : ℕ) : ℕ := sps * len / 1000

/-- Line 103 without the constant factor: the fraction of the current cycle
completed at sample `i`, namely `(i % cps) / cps`; the phase handed to the
oscillator is this value times `2 * pi`. -/
def cycleFrac (cps : ℚ) (i : ℕ) : ℚ := qmod (i : ℚ) cps / cps

/-- Lines 133-146, `Sound.square`, in cycle-fraction form: the source tests
`phase < math.pi` where `phase = cycleFrac * 2 * pi`, which is equivalent to
`cycleFrac < 1/2` (see `square_phase_form` below). Returns `1` or `-1`. -/
def square (q : ℚ) : ℚ := if q < 1 / 2 then 1 else -1

/-- Lines 117-130, `Sound.saw`, in cycle-fraction form: the source reduces
`phase` modulo `pi` and returns `phase / (0.5 * pi) - 1.0`; with
`phase = q * 2 * pi` this equals `2 * ((2 * q) mod 1) - 1`
(see `saw_phase_form` below). -/
def saw (q : ℚ) : ℚ := 2 * qmod (2 * q) 1 - 1

/-- Line 104, `v = int(amp * _func(p))`: quantization of one oscillator sample
to an integer amplitude. -/
def quantOsc (f : ℚ → ℚ) (q : ℚ) : ℤ := truncQ ((amp : ℚ) * f q)

/-- Quantized square oscillator sample as a function of the cycle fraction. -/
def squareQuant (q : ℚ) : ℤ := quantOsc square q

/-- Quantized saw oscillator sample as a function of the cycle fraction. -/
def sawQuant (q : ℚ) : ℤ := quantOsc saw q

/-- Lines 105-106: the attack envelope, `if i < attack: v = int(v * float(i) /
attack)`. `attackS` is the attack length in samples. -/
def applyAttack (attackS : ℕ) (i : ℕ) (v : ℤ) : ℤ :=
  if i < attackS then truncQ ((v : ℚ) * (i : ℚ) / (attackS : ℚ)) else v

/-- Lines 107-108: the decay envelope, `if i > slen - decay: v = int(v *
(float(slen) - float(i)) / decay)`. The comparison is on Python ints, which
can be negative, hence `ℤ`. -/
def applyDecay (slen decayS : ℕ) (i : ℕ) (v : ℤ) : ℤ :=
  if (slen : ℤ) - (decayS : ℤ) < (i : ℤ) then
    truncQ ((v : ℚ) * ((slen : ℚ) - (i : ℚ)) / (decayS : ℚ))
  else v

/-- Lines 103-108: the value of output sample `i`, for a quantized oscillator
`w` (the composite of line 104 with the chosen `_func`, as a function of the
cycle fraction). -/
def sampleVal (w : ℚ → ℤ) (slen attackS decayS : ℕ) (cps : ℚ) (i : ℕ) : ℤ :=
  applyDecay slen decayS i (applyAttack attackS i (w (cycleFrac cps i)))

/-- Python-level fault raised by the synthesis loop. -/
inductive PyErr
  | zeroDivision
deriving DecidableEq

/-- Lines 93-112 of `Sound.__init__`: the synthesis of the interleaved stereo
buffer, parametric in the quantized oscillator `w`. Each mono sample is
appended twice (lines 109-110) and the flat list is reshaped into pairs and
cast to `int16` (line 112), modelled by mapping `v` to `(wrap16 v, wrap16 v)`.
The two error exits model the Python `ZeroDivisionError`s: `freq` equal to
zero faults at line 99, and a zero cycles-per-sample value faults at line 103
on the first loop iteration (so only when at least one sample is produced). -/
def generateWith (w : ℚ → ℤ) (sps : ℕ) (freq : Freq) (len att dec : ℕ) :
    Except PyErr (List (ℤ × ℤ)) :=
  if Freq.isZero freq then Except.error PyErr.zeroDivision
  else if cyclesPerSample sps freq = 0 ∧ slenOf sps len ≠ 0 then
    Except.error PyErr.zeroDivision
  else
    Except.ok (((List.range (slenOf sps len)).map
      (fun i => sampleVal w (slenOf sps len) (msToSamples att sps)
        (msToSamples dec sps) (cyclesPerSample sps freq) i)).map
      (fun v => (wrap16 v, wrap16 v)))

/-- Buffer carried by a successful synthesis, with the empty buffer as the
junk value on the fault path. -/
def bufOf (e : Except PyErr (List (ℤ × ℤ))) : List (ℤ × ℤ) :=
  match e with
  | Except.ok l => l
  | Except.error _ => []

/-- Argument of `Sound.pan` once the type guard at line 181 has been passed:
the Python value is either the string `'left'`, the string `'right'`, or an
int/float. A value of any other type is rejected by the guard and is not
representable here. -/
inductive PanSpec
  | left
  | right
  | num (v : ℚ)
deriving DecidableEq

/-- Lines 190-205, the body of the panning loop for one stereo frame: `'left'`
zeroes the right channel, `'right'` zeroes the left channel, a negative number
divides the right channel by its absolute value (truncating), a positive
number divides the left channel likewise, and the results are stored back into
the `int16` array (wraparound cast). -/
def panStep (p : PanSpec) (pr : ℤ × ℤ) : ℤ × ℤ :=
  match p with
  | PanSpec.left => (wrap16 pr.1, wrap16 0)
  | PanSpec.right => (wrap16 0, wrap16 pr.2)
  | PanSpec.num v =>
      if v < 0 then (wrap16 pr.1, wrap16 (truncQ ((pr.2 : ℚ) / |v|)))
      else if 0 < v then (wrap16 (truncQ ((pr.1 : ℚ) / |v|)), wrap16 pr.2)
      else (wrap16 pr.1, wrap16 pr.2)

/-- Lines 164-207, `Sound.pan`, as a transformer of the sound's buffer. The
first component is the buffer owned by the sound after the call; the second is
the Python return value of the method, which is always `None` (modelled as
`none`): the method body has no `return` with a value. The `panning == 0`
early exit at lines 185-186 leaves the buffer untouched. The type guard at
line 181 rejects only values that are neither int/float nor `'left'`/`'right'`
and is therefore never triggered by a `PanSpec`. -/
def Sound.pan (buf : List (ℤ × ℤ)) (p : PanSpec) :
    List (ℤ × ℤ) × Option (List (ℤ × ℤ)) :=
  if p = PanSpec.num 0 then (buf, none)
  else (buf.map (panStep p), none)

theorem amp_eq : amp = 16383 := by decide

theorem wrap16_zero : wrap16 0 = 0 := by decide

theorem wrap16_eq_of_bounded {x : ℤ} (h1 : -32768 ≤ x) (h2 : x ≤ 32767) :
    wrap16 x = x := by
  unfold wrap16
  rw [Int.emod_eq_of_lt (by omega) (by omega)]
  omega

theorem truncQ_bound {q : ℚ} {c : ℤ} (hc : 0 ≤ c) (hlo : -(c : ℚ) ≤ q)
    (hhi : q ≤ (c : ℚ)) : -c ≤ truncQ q ∧ truncQ q ≤ c := by
  unfold truncQ
  split
  case isTrue hq =>
    constructor
    · have h1 : ((-c : ℤ) : ℚ) ≤ q := by push_cast; linarith
      have h2 := Int.ceil_le_ceil h1
      rwa [Int.ceil_intCast] at h2
    · have h1 : ⌈q⌉ ≤ (0 : ℤ) := Int.ceil_le.mpr (by exact_mod_cast hq.le)
      omega
  case isFalse hq =>
    push_neg at hq
    constructor
    · have h1 : (0 : ℤ) ≤ ⌊q⌋ := Int.floor_nonneg.mpr hq
      omega
    · have h2 := Int.floor_le_floor hhi
      rwa [Int.floor_intCast] at h2

theorem qmod_one_bounds (x : ℚ) : 0 ≤ qmod x 1 ∧ qmod x 1 < 1 := by
  unfold qmod
  rw [div_one, one_mul]
  constructor
  · have := Int.floor_le x
    linarith
  · have := Int.lt_floor_add_one x
    linarith

theorem squareQuant_eq (q : ℚ) :
    squareQuant q = if q < 1 / 2 then 16383 else -16383 := by
  unfold squareQuant quantOsc square
  rw [amp_eq]
  by_cases h : q < 1 / 2
  · rw [if_pos h, if_pos h]
    unfold truncQ
    rw [if_neg (by norm_num)]
    rw [show ((16383 : ℤ) : ℚ) * 1 = ((16383 : ℤ) : ℚ) by ring, Int.floor_intCast]
  · rw [if_neg h, if_neg h]
    unfold truncQ
    rw [if_pos (by norm_num)]
    rw [show ((16383 : ℤ) : ℚ) * -1 = ((-16383 : ℤ) : ℚ) by push_cast; ring,
      Int.ceil_intCast]

theorem squareQuant_bounded (q : ℚ) :
    -16383 ≤ squareQuant q ∧ squareQuant q ≤ 16383 := by
  rw [squareQuant_eq]
  split <;> omega

theorem sawQuant_bounded (q : ℚ) :
    -16383 ≤ sawQuant q ∧ sawQuant q ≤ 16383 := by
  unfold sawQuant quantOsc saw
  rw [amp_eq]
  have h := qmod_one_bounds (2 * q)
  refine truncQ_bound (by norm_num) ?_ ?_ <;> push_cast <;> nlinarith [h.1, h.2]

theorem applyAttack_bound {v : ℤ} (aS i : ℕ) (hv1 : -16383 ≤ v)
    (hv2 : v ≤ 16383) :
    -16383 ≤ applyAttack aS i v ∧ applyAttack aS i v ≤ 16383 := by
  unfold applyAttack
  split
  case isTrue hlt =>
    have haS : (0 : ℚ) < (aS : ℚ) := by
      exact_mod_cast Nat.pos_of_ne_zero (by omega)
    have hi0 : (0 : ℚ) ≤ (i : ℚ) := by positivity
    have hi1 : (i : ℚ) ≤ (aS : ℚ) := by exact_mod_cast hlt.le
    have hv1Q : (-16383 : ℚ) ≤ (v : ℚ) := by exact_mod_cast hv1
    have hv2Q : (v : ℚ) ≤ (16383 : ℚ) := by exact_mod_cast hv2
    have ht0 : (0 : ℚ) ≤ (i : ℚ) / (aS : ℚ) := by positivity
    have ht1 : (i : ℚ) / (aS : ℚ) ≤ 1 := (div_le_one haS).mpr hi1
    refine truncQ_bound (by norm_num) ?_ ?_ <;>
      rw [mul_div_assoc] <;> push_cast <;> nlinarith
  case isFalse => exact ⟨hv1, hv2⟩

theorem applyDecay_bound {v : ℤ} (slen dS i : ℕ) (hi : i < slen)
    (hv1 : -16383 ≤ v) (hv2 : v ≤ 16383) :
    -16383 ≤ applyDecay slen dS i v ∧ applyDecay slen dS i v ≤ 16383 := by
  unfold applyDecay
  split
  case isTrue hlt =>
    have h1 : (slen : ℚ) - (i : ℚ) < (dS : ℚ) := by
      have : (slen : ℤ) - (dS : ℤ) < (i : ℤ) := hlt
      have h2 : ((slen : ℤ) : ℚ) - ((dS : ℤ) : ℚ) < ((i : ℤ) : ℚ) := by
        exact_mod_cast this
      push_cast at h2 ⊢
      linarith
    have h0 : (0 : ℚ) < (slen : ℚ) - (i : ℚ) := by
      have : (i : ℚ) < (slen : ℚ) := by exact_mod_cast hi
      linarith
    have hdS : (0 : ℚ) < (dS : ℚ) := lt_trans h0 h1
    have hv1Q : (-16383 : ℚ) ≤ (v : ℚ) := by exact_mod_cast hv1
    have hv2Q : (v : ℚ) ≤ (16383 : ℚ) := by exact_mod_cast hv2
    have ht0 : (0 : ℚ) ≤ ((slen : ℚ) - (i : ℚ)) / (dS : ℚ) := by positivity
    have ht1 : ((slen : ℚ) - (i : ℚ)) / (dS : ℚ) ≤ 1 := (div_le_one hdS).mpr h1.le
    refine truncQ_bound (by norm_num) ?_ ?_ <;>
      rw [mul_div_assoc] <;> nlinarith
  case isFalse => exact ⟨hv1, hv2⟩

theorem sampleVal_bound (w : ℚ → ℤ)
    (hw : ∀ q : ℚ, -16383 ≤ w q ∧ w q ≤ 16383) (slen aS dS : ℕ) (cps : ℚ)
    (i : ℕ) (hi : i < slen) :
    -16383 ≤ sampleVal w slen aS dS cps i ∧ sampleVal w slen aS dS cps i ≤ 16383 := by
  unfold sampleVal
  have h0 := hw (cycleFrac cps i)
  have h1 := applyAttack_bound aS i h0.1 h0.2
  exact applyDecay_bound slen dS i hi h1.1 h1.2

theorem square_phase_form (q : ℚ) :
    square q = if (q : ℝ) * (2 * Real.pi) < Real.pi then 1 else -1 := by
  unfold square
  have hpi := Real.pi_pos
  by_cases h : q < 1 / 2
  · rw [if_pos h, if_pos]
    have hq : (q : ℝ) < 1 / 2 := by
      rw [show (1 / 2 : ℝ) = ((1 / 2 : ℚ) : ℝ) by norm_num]
      exact_mod_cast h
    nlinarith
  · rw [if_neg h, if_neg]
    push_neg at h ⊢
    have hq : (1 / 2 : ℝ) ≤ (q : ℝ) := by
      rw [show (1 / 2 : ℝ) = ((1 / 2 : ℚ) : ℝ) by norm_num]
      exact_mod_cast h
    nlinarith

theorem saw_phase_form (q : ℚ) :
    ((saw q : ℚ) : ℝ) =
      ((q : ℝ) * (2 * Real.pi) - Real.pi * ⌊(q : ℝ) * (2 * Real.pi) / Real.pi⌋) /
        (0.5 * Real.pi) - 1 := by
  have hpi : Real.pi ≠ 0 := Real.pi_ne_zero
  have h1 : (q : ℝ) * (2 * Real.pi) / Real.pi = ((2 * q : ℚ) : ℝ) := by
    push_cast
    field_simp
    ring
  rw [h1, Rat.floor_cast]
  unfold saw qmod
  rw [div_one, one_mul]
  push_cast
  field_simp
  ring

theorem sineQuant_bounded (x : ℝ) :
    -16383 ≤ ⌊(16383 : ℝ) * Real.sin x⌋ ∧ ⌈(16383 : ℝ) * Real.sin x⌉ ≤ 16383 := by
  constructor
  · rw [Int.le_floor]
    have := Real.neg_one_le_sin x
    push_cast
    nlinarith
  · rw [Int.ceil_le]
    have := Real.sin_le_one x
    push_cast
    nlinarith

theorem noiseQuant_bounded (r : ℚ) (h0 : 0 ≤ r) (h1 : r < 1) :
    -16383 ≤ truncQ ((amp : ℚ) * r) ∧ truncQ ((amp : ℚ) * r) ≤ 16383 := by
  rw [amp_eq]
  refine truncQ_bound (by norm_num) ?_ ?_ <;> push_cast <;> nlinarith

theorem generateWith_ok (w : ℚ → ℤ) (sps : ℕ) (freq : Freq) (len att dec : ℕ)
    (h0 : Freq.isZero freq = false) (h1 : cyclesPerSample sps freq ≠ 0) :
    generateWith w sps freq len att dec =
      Except.ok (((List.range (slenOf sps len)).map
        (fun i => sampleVal w (slenOf sps len) (msToSamples att sps)
          (msToSamples dec sps) (cyclesPerSample sps freq) i)).map
        (fun v => (wrap16 v, wrap16 v))) := by
  unfold generateWith
  rw [h0]
  simp only [Bool.false_eq_true, if_false]
  rw [if_neg (fun hc => h1 hc.1)]

theorem generateWith_ok_inv (w : ℚ → ℤ) (sps : ℕ) (freq : Freq)
    (len att dec : ℕ) (buf : List (ℤ × ℤ))
    (h : generateWith w sps freq len att dec = Except.ok buf) :
    buf = ((List.range (slenOf sps len)).map
      (fun i => sampleVal w (slenOf sps len) (msToSamples att sps)
        (msToSamples dec sps) (cyclesPerSample sps freq) i)).map
      (fun v => (wrap16 v, wrap16 v)) := by
  unfold generateWith at h
  split at h
  · simp at h
  · split at h
    · simp at h
    · injection h with h2
      exact h2.symm

theorem gen_eval_A : generateWith squareQuant 1000 (Freq.real 500) 2 0 0 =
    Except.ok [((16383 : ℤ), (16383 : ℤ)), ((-16383 : ℤ), (-16383 : ℤ))] := by
  have hcps : cyclesPerSample 1000 (Freq.real 500) = 2 := by
    unfold cyclesPerSample
    norm_num
  rw [generateWith_ok squareQuant 1000 (Freq.real 500) 2 0 0
    (show Freq.isZero (Freq.real 500) = false from rfl)
    (by rw [hcps]; norm_num), hcps]
  show Except.ok (([0, 1].map _).map _) = _
  simp only [List.map, sampleVal, applyAttack, applyDecay, cycleFrac, qmod,
    squareQuant_eq, msToSamples, slenOf]
  norm_num [wrap16]

theorem gen_eval_B : generateWith squareQuant 1000 (Freq.real 100) 1 1 0 =
    Except.ok [((0 : ℤ), (0 : ℤ))] := by
  have hcps : cyclesPerSample 1000 (Freq.real 100) = 10 := by
    unfold cyclesPerSample
    norm_num
  rw [generateWith_ok squareQuant 1000 (Freq.real 100) 1 1 0
    (show Freq.isZero (Freq.real 100) = false from rfl)
    (by rw [hcps]; norm_num), hcps]
  show Except.ok (([0].map _).map _) = _
  simp only [List.map, sampleVal, applyAttack, applyDecay, cycleFrac, qmod,
    squareQuant_eq, msToSamples, slenOf, truncQ]
  norm_num [wrap16]

theorem gen_err_intfreq : generateWith squareQuant 1000 (Freq.int 2000) 1 0 0 =
    Except.error PyErr.zeroDivision := rfl

/-- Claim C2 (code bug): calling the generator with frequency 0 — whether the
Python int `0` or the float `0.0` — does NOT fail with an `InvalidFrequency`
error as the specification requires: `Sound.__init__` has no frequency
validation at all, and line 99 `cps = float(sps/freq)` raises a bare
`ZeroDivisionError`, here `PyErr.zeroDivision`. -/
theorem c2_zero_frequency_fault :
    generateWith squareQuant 48000 (Freq.int 0) 100 0 0 =
      Except.error PyErr.zeroDivision ∧
    generateWith squareQuant 48000 (Freq.real 0) 100 0 0 =
      Except.error PyErr.zeroDivision :=
  ⟨rfl, rfl⟩

/-- Claim C7 (confirmed): with `attackSamples = 0` the attack branch
(line 105, `if i < attack`) is skipped for every sample index, and with
`decaySamples = 0` the decay branch (line 107, `if i > slen - decay`) is
skipped for every index `i < slen`, so the divisions by `attack` and `decay`
at lines 106 and 108 are never evaluated; moreover whether generation
succeeds does not depend on the attack/decay arguments at all. -/
theorem c7_envelope_skip :
    (∀ (i : ℕ) (v : ℤ), applyAttack 0 i v = v) ∧
    (∀ (slen i : ℕ) (v : ℤ), i < slen → applyDecay slen 0 i v = v) ∧
    (∀ (w : ℚ → ℤ) (slen dS : ℕ) (cps : ℚ) (i : ℕ),
      sampleVal w slen 0 dS cps i = applyDecay slen dS i (w (cycleFrac cps i))) ∧
    (∀ (w : ℚ → ℤ) (slen aS : ℕ) (cps : ℚ) (i : ℕ), i < slen →
      sampleVal w slen aS 0 cps i = applyAttack aS i (w (cycleFrac cps i))) ∧
    (∀ (w : ℚ → ℤ) (sps : ℕ) (freq : Freq) (len att dec : ℕ),
      (∃ b, generateWith w sps freq len att dec = Except.ok b) ↔
      (∃ b, generateWith w sps freq len 0 0 = Except.ok b)) := by
  refine ⟨?_, ?_, ?_, ?_, ?_⟩
  · intro i v
    unfold applyAttack
    rw [if_neg (by omega)]
  · intro slen i v hi
    unfold applyDecay
    rw [if_neg (by omega)]
  · intro w slen dS cps i
    unfold sampleVal applyAttack
    rw [if_neg (by omega)]
  · intro w slen aS cps i hi
    unfold sampleVal applyDecay
    rw [if_neg (by omega)]
  · intro w sps freq len att dec
    by_cases hz : Freq.isZero freq = true
    · simp [generateWith, hz]
    · by_cases hc : cyclesPerSample sps freq = 0 ∧ slenOf sps len ≠ 0
      · simp [generateWith, hz, hc]
      · simp [generateWith, hz, hc]

/-- Witness for C7 at concrete inputs: sample 5 of 10 with no attack and no
decay is left unscaled by both branches. -/
theorem c7_envelope_skip_witness :
    applyAttack 0 5 9999 = 9999 ∧ applyDecay 10 0 5 (-7) = -7 :=
  ⟨c7_envelope_skip.1 5 9999, c7_envelope_skip.2.1 10 5 (-7) (by omega)⟩

/-- Claim C8 (confirmed): panning with the numeric value 0 hits the early
return at lines 185-186 of `Sound.pan` and the buffer is left bit-identical
to the input. -/
theorem c8_pan_zero_noop (buf : List (ℤ × ℤ)) :
    (Sound.pan buf (PanSpec.num 0)).1 = buf := by
  unfold Sound.pan
  rw [if_pos rfl]

/-- Claim C9 (confirmed): panning with `'left'` sets every right-channel
sample to 0 and stores every left-channel sample back unchanged (the store's
int16 cast is the identity because the buffer holds int16 values). -/
theorem c9_pan_left (buf : List (ℤ × ℤ))
    (h : ∀ pr ∈ buf, -32768 ≤ pr.1 ∧ pr.1 ≤ 32767) :
    (Sound.pan buf PanSpec.left).1 = buf.map (fun pr => (pr.1, (0 : ℤ))) := by
  unfold Sound.pan
  rw [if_neg (by decide)]
  show List.map _ buf = _
  apply List.map_congr_left
  intro pr hpr
  unfold panStep
  rw [wrap16_eq_of_bounded (h pr hpr).1 (h pr hpr).2, wrap16_zero]

/-- Witness for C9 on a concrete two-frame buffer. -/
theorem c9_pan_left_witness :
    (Sound.pan [((100 : ℤ), (-200 : ℤ)), ((-5 : ℤ), (7 : ℤ))] PanSpec.left).1 =
      [((100 : ℤ), (0 : ℤ)), ((-5 : ℤ), (0 : ℤ))] := by
  rw [c9_pan_left _ (by decide)]
  rfl

/-- Claim C1 (amended): for nonzero frequency and a nonzero cycles-per-sample
value (automatic for float frequencies; for integer frequencies this requires
`freq ≤ sampleRate`), generation succeeds and the stereo buffer has exactly
`sampleRate * durationMs / 1000` frames (integer truncation). -/
theorem c1_generate_length_amended (w : ℚ → ℤ) (sps : ℕ) (freq : Freq)
    (len att dec : ℕ) (h0 : Freq.isZero freq = false)
    (h1 : cyclesPerSample sps freq ≠ 0) :
    ∃ buf, generateWith w sps freq len att dec = Except.ok buf ∧
      buf.length = sps * len / 1000 := by
  refine ⟨_, generateWith_ok w sps freq len att dec h0 h1, ?_⟩
  simp [List.length_map, List.length_range, slenOf]

/-- Witness for C1 (amended) at sampleRate 1000 Hz, float frequency 500 Hz,
duration 2 ms: the buffer has 2 frames. -/
theorem c1_generate_length_amended_witness :
    ∃ buf, generateWith squareQuant 1000 (Freq.real 500) 2 0 0 = Except.ok buf ∧
      buf.length = 1000 * 2 / 1000 :=
  c1_generate_length_amended squareQuant 1000 (Freq.real 500) 2 0 0 rfl
    (by unfold cyclesPerSample; norm_num)

/-- Counterexample to C1 as stated: the parameters are valid in the
specification's sense (positive integer frequency 2000, non-negative durations,
positive sample rate 1000), yet generation does not produce a buffer of
`1000 * 1 / 1000 = 1` frames — Python 2 integer division makes
`cps = float(1000/2000) = 0.0` and the first loop iteration raises
`ZeroDivisionError` at `i % cps` (line 103). -/
theorem c1_generate_length_cex :
    ¬ ∃ buf, generateWith squareQuant 1000 (Freq.int 2000) 1 0 0 = Except.ok buf ∧
      buf.length = 1000 * 1 / 1000 := by
  rintro ⟨buf, h, -⟩
  rw [gen_err_intfreq] at h
  exact Except.noConfusion h

theorem panStep_num_eq (v : ℚ) (hv : v ≠ 0) :
    panStep (PanSpec.num v) = fun pr : ℤ × ℤ =>
      if v < 0 then (wrap16 pr.1, wrap16 (truncQ ((pr.2 : ℚ) / |v|)))
      else (wrap16 (truncQ ((pr.1 : ℚ) / |v|)), wrap16 pr.2) := by
  funext pr
  show (if v < 0 then (wrap16 pr.1, wrap16 (truncQ ((pr.2 : ℚ) / |v|)))
      else if 0 < v then (wrap16 (truncQ ((pr.1 : ℚ) / |v|)), wrap16 pr.2)
      else (wrap16 pr.1, wrap16 pr.2)) = _
  by_cases hneg : v < 0
  · rw [if_pos hneg, if_pos hneg]
  · rw [if_neg hneg, if_neg hneg,
      if_pos (lt_of_le_of_ne (not_lt.mp hneg) (Ne.symm hv))]

/-- Counterexample to C3 as stated: the numeric panning value 5 lies outside
[-1, 1], so by the claim `pan` should be a no-op leaving the buffer unchanged;
instead the type-only guard at line 181 admits it and the left channel of the
frame `(100, 100)` is divided by 5, changing the buffer. -/
theorem c3_invalid_panning_cex :
    (Sound.pan [((100 : ℤ), (100 : ℤ))] (PanSpec.num 5)).1 ≠
      [((100 : ℤ), (100 : ℤ))] := by
  unfold Sound.pan
  rw [if_neg (by decide)]
  show List.map _ _ ≠ _
  simp only [List.map, panStep]
  rw [if_neg (by norm_num), if_pos (by norm_num)]
  have habs : |(5 : ℚ)| = 5 := abs_of_pos (by norm_num)
  have h1 : wrap16 (truncQ (((100 : ℤ) : ℚ) / |(5 : ℚ)|)) = 20 := by
    rw [habs]
    norm_num [truncQ, wrap16]
  rw [h1]
  decide

/-- Claim C3 (amended): `Sound.pan` does not reject numeric panning values
outside [-1, 1]: the guard at line 181 tests only the argument's type, so any
int/float passes it, and for a value `v` outside the range the attenuation is
applied exactly as for an in-range value — the right channel (for `v < 0`) or
the left channel (for `v > 0`) of every frame is divided by `|v|` with
truncation toward zero and stored back with an int16 cast. The rejection
branch (warning and unchanged buffer) is reached only by arguments that are
neither int/float nor the strings `'left'`/`'right'`. -/
theorem c3_invalid_panning_amended (buf : List (ℤ × ℤ)) (v : ℚ)
    (h : v < -1 ∨ 1 < v) :
    (Sound.pan buf (PanSpec.num v)).1 =
      buf.map (fun pr =>
        if v < 0 then (wrap16 pr.1, wrap16 (truncQ ((pr.2 : ℚ) / |v|)))
        else (wrap16 (truncQ ((pr.1 : ℚ) / |v|)), wrap16 pr.2)) := by
  have hv : v ≠ 0 := by
    rcases h with h | h <;> intro h0 <;> rw [h0] at h <;> norm_num at h
  unfold Sound.pan
  rw [if_neg (by simp [hv]), panStep_num_eq v hv]

/-- Witness for C3 (amended) at the out-of-range value 5 on a one-frame
buffer. -/
theorem c3_invalid_panning_amended_witness :
    (Sound.pan [((100 : ℤ), (100 : ℤ))] (PanSpec.num 5)).1 =
      [((100 : ℤ), (100 : ℤ))].map (fun pr =>
        if (5 : ℚ) < 0 then (wrap16 pr.1, wrap16 (truncQ ((pr.2 : ℚ) / |(5 : ℚ)|)))
        else (wrap16 (truncQ ((pr.1 : ℚ) / |(5 : ℚ)|)), wrap16 pr.2)) :=
  c3_invalid_panning_amended [((100 : ℤ), (100 : ℤ))] 5 (Or.inr (by norm_num))

/-- Counterexample to C5 as stated: `Sound.pan` does not return the buffer for
chaining — the Python method body never returns a value, so the call returns
`None` (modelled `none`) rather than the (new) buffer. -/
theorem c5_pan_return_cex :
    (Sound.pan [((100 : ℤ), (100 : ℤ))] (PanSpec.num (-1))).2 ≠
      some (Sound.pan [((100 : ℤ), (100 : ℤ))] (PanSpec.num (-1))).1 := by
  unfold Sound.pan
  rw [if_neg (by decide)]
  simp

/-- Claim C5 (amended): for every valid nonzero numeric panning value `v` in
[-1, 1], `pan` replaces the sound's buffer by the frame-wise attenuated buffer
— the targeted channel is divided by `|v|` and truncated toward zero (then
stored with an int16 cast, which can wrap for `|v| < 1` since the division
then amplifies) — and the method returns `None`, not the buffer; the original
buffer object is not mutated in place but replaced via a fresh array
(lines 188 and 207). -/
theorem c5_pan_amended (buf : List (ℤ × ℤ)) (v : ℚ) (h0 : v ≠ 0)
    (_h1 : -1 ≤ v) (_h2 : v ≤ 1) :
    Sound.pan buf (PanSpec.num v) =
      (buf.map (fun pr =>
        if v < 0 then (wrap16 pr.1, wrap16 (truncQ ((pr.2 : ℚ) / |v|)))
        else (wrap16 (truncQ ((pr.1 : ℚ) / |v|)), wrap16 pr.2)), none) := by
  unfold Sound.pan
  rw [if_neg (by simp [h0]), panStep_num_eq v h0]

/-- Witness for C5 (amended) at the valid panning value -1 on a one-frame
buffer. -/
theorem c5_pan_amended_witness :
    Sound.pan [((100 : ℤ), (100 : ℤ))] (PanSpec.num (-1)) =
      ([((100 : ℤ), (100 : ℤ))].map (fun pr =>
        if (-1 : ℚ) < 0 then
          (wrap16 pr.1, wrap16 (truncQ ((pr.2 : ℚ) / |(-1 : ℚ)|)))
        else (wrap16 (truncQ ((pr.1 : ℚ) / |(-1 : ℚ)|)), wrap16 pr.2)), none) :=
  c5_pan_amended [((100 : ℤ), (100 : ℤ))] (-1) (by norm_num) (by norm_num)
    (by norm_num)

/-- Counterexample to C4 as stated: at sampleRate 1000 and integer frequency
3, the code computes `cps = float(1000/3) = 333.0` (Python 2 integer division
inside the `float(...)`), which is not the exact real quotient 1000/3. -/
theorem c4_cycles_per_sample_cex :
    cyclesPerSample 1000 (Freq.int 3) ≠ (1000 : ℚ) / 3 := by
  have h : cyclesPerSample 1000 (Freq.int 3) = ((333 : ℤ) : ℚ) := rfl
  rw [h]
  norm_num

/-- Claim C4 (amended): `cps = float(sps/freq)` is the exact quotient
`sampleRate / frequency` only when the frequency is a float; for a positive
integer frequency the quotient is first truncated by Python 2 integer
division, so `cps` is the floor of the exact quotient. In both cases the
cycle fraction of sample `i` is `(i mod cps) / cps`, i.e. the phase is
`(i mod cps) / cps * 2 * pi`. -/
theorem c4_cycles_per_sample_amended :
    (∀ (sps : ℕ) (q : ℚ), cyclesPerSample sps (Freq.real q) = (sps : ℚ) / q) ∧
    (∀ (sps : ℕ) (n : ℤ), 0 < n →
      cyclesPerSample sps (Freq.int n) = ((⌊(sps : ℚ) / (n : ℚ)⌋ : ℤ) : ℚ)) ∧
    (∀ (cps : ℚ) (i : ℕ), cycleFrac cps i = qmod (i : ℚ) cps / cps) := by
  refine ⟨fun sps q => rfl, ?_, fun cps i => rfl⟩
  intro sps n hn
  show ((Int.fdiv (sps : ℤ) n : ℤ) : ℚ) = _
  congr 1
  rw [Int.fdiv_eq_ediv _ hn.le]
  lift n to ℕ using hn.le with m
  exact_mod_cast (Rat.floor_intCast_div_natCast (sps : ℤ) m).symm

/-- Witness for C4 (amended), integer case, at sampleRate 1000 and integer
frequency 3: `cps` is the floor of 1000/3. -/
theorem c4_cycles_per_sample_amended_witness :
    cyclesPerSample 1000 (Freq.int 3) =
      ((⌊((1000 : ℕ) : ℚ) / ((3 : ℤ) : ℚ)⌋ : ℤ) : ℚ) :=
  c4_cycles_per_sample_amended.2.1 1000 3 (by norm_num)

theorem generateWith_getD (w : ℚ → ℤ) (sps : ℕ) (freq : Freq)
    (len att dec : ℕ) (buf : List (ℤ × ℤ))
    (h : generateWith w sps freq len att dec = Except.ok buf) (i : ℕ)
    (hi : i < buf.length) :
    buf.getD i (0, 0) =
      (wrap16 (sampleVal w (slenOf sps len) (msToSamples att sps)
          (msToSamples dec sps) (cyclesPerSample sps freq) i),
        wrap16 (sampleVal w (slenOf sps len) (msToSamples att sps)
          (msToSamples dec sps) (cyclesPerSample sps freq) i)) := by
  have hb := generateWith_ok_inv _ _ _ _ _ _ _ h
  subst hb
  rw [List.length_map, List.length_map, List.length_range] at hi
  rw [List.getD_eq_getElem?_getD, List.getElem?_map, List.getElem?_map,
    List.getElem?_range hi]
  rfl

/-- Claim C6 (amended): for the square oscillator, every sample whose index is
outside the attack region (`i >= attackSamples`) and outside the decay region
(`i <= slen - decaySamples`) is exactly +16383 or -16383; samples inside the
envelope regions are scaled and can take intermediate values (see the
counterexample to the unrestricted claim). -/
theorem c6_square_values_amended (sps : ℕ) (freq : Freq) (len att dec : ℕ)
    (buf : List (ℤ × ℤ))
    (h : generateWith squareQuant sps freq len att dec = Except.ok buf)
    (i : ℕ) (hi : i < buf.length) (hatt : msToSamples att sps ≤ i)
    (hdec : (i : ℤ) ≤ (slenOf sps len : ℤ) - (msToSamples dec sps : ℤ)) :
    buf.getD i (0, 0) = ((16383 : ℤ), (16383 : ℤ)) ∨
    buf.getD i (0, 0) = ((-16383 : ℤ), (-16383 : ℤ)) := by
  rw [generateWith_getD squareQuant sps freq len att dec buf h i hi]
  unfold sampleVal
  rw [show applyAttack (msToSamples att sps) i
      (squareQuant (cycleFrac (cyclesPerSample sps freq) i)) =
      squareQuant (cycleFrac (cyclesPerSample sps freq) i) by
    unfold applyAttack; rw [if_neg (by omega)]]
  rw [show applyDecay (slenOf sps len) (msToSamples dec sps) i
      (squareQuant (cycleFrac (cyclesPerSample sps freq) i)) =
      squareQuant (cycleFrac (cyclesPerSample sps freq) i) by
    unfold applyDecay; rw [if_neg (by omega)]]
  rw [squareQuant_eq]
  by_cases hq : cycleFrac (cyclesPerSample sps freq) i < 1 / 2
  · rw [if_pos hq]
    left
    decide
  · rw [if_neg hq]
    right
    decide

/-- Witness for C6 (amended): with no attack and no decay at sampleRate 1000,
float frequency 500, duration 2 ms, sample 1 is one of the two full-amplitude
values. -/
theorem c6_square_values_amended_witness :
    (bufOf (generateWith squareQuant 1000 (Freq.real 500) 2 0 0)).getD 1 (0, 0) =
      ((16383 : ℤ), (16383 : ℤ)) ∨
    (bufOf (generateWith squareQuant 1000 (Freq.real 500) 2 0 0)).getD 1 (0, 0) =
      ((-16383 : ℤ), (-16383 : ℤ)) :=
  c6_square_values_amended 1000 (Freq.real 500) 2 0 0 _
    (by rw [gen_eval_A]; rfl) 1 (by rw [gen_eval_A]; decide)
    (by decide) (by decide)

/-- Counterexample to C6 as stated: with a 1 ms attack at sampleRate 1000 the
attack envelope scales sample 0 of the square wave to 0, which is neither
+16383 nor -16383, so not every generated value is one of the two
full-amplitude values. -/
theorem c6_square_values_cex :
    ¬ ((bufOf (generateWith squareQuant 1000 (Freq.real 100) 1 1 0)).getD 0 (0, 0) =
        ((16383 : ℤ), (16383 : ℤ)) ∨
      (bufOf (generateWith squareQuant 1000 (Freq.real 100) 1 1 0)).getD 0 (0, 0) =
        ((-16383 : ℤ), (-16383 : ℤ))) := by
  rw [gen_eval_B]
  decide

/-- Claim C10 (confirmed): every quantized oscillator bounded by 16383 in
absolute value — which holds for all four oscillator kinds: the square and saw
quantizations are bounded (second and third conjuncts), the quantized sine is
bounded because `|sin| <= 1` (fourth conjunct, at the real level since `sin`
is irrational), and the white-noise quantization of a uniform draw in [0, 1)
is bounded (fifth conjunct) — yields generated buffers in which every sample
of both channels has absolute value at most 16383 = (2^15 - 1) / 2, for every
envelope configuration; hence the int16 conversion at line 112 never wraps. -/
theorem c10_amplitude_bound :
    (∀ (w : ℚ → ℤ), (∀ q : ℚ, -16383 ≤ w q ∧ w q ≤ 16383) →
      ∀ (sps : ℕ) (freq : Freq) (len att dec : ℕ) (buf : List (ℤ × ℤ)),
        generateWith w sps freq len att dec = Except.ok buf →
        ∀ pr ∈ buf, (-16383 ≤ pr.1 ∧ pr.1 ≤ 16383) ∧
          (-16383 ≤ pr.2 ∧ pr.2 ≤ 16383)) ∧
    (∀ q : ℚ, -16383 ≤ squareQuant q ∧ squareQuant q ≤ 16383) ∧
    (∀ q : ℚ, -16383 ≤ sawQuant q ∧ sawQuant q ≤ 16383) ∧
    (∀ x : ℝ, -16383 ≤ ⌊(16383 : ℝ) * Real.sin x⌋ ∧
      ⌈(16383 : ℝ) * Real.sin x⌉ ≤ 16383) ∧
    (∀ r : ℚ, 0 ≤ r → r < 1 →
      -16383 ≤ truncQ ((amp : ℚ) * r) ∧ truncQ ((amp : ℚ) * r) ≤ 16383) := by
  refine ⟨?_, squareQuant_bounded, sawQuant_bounded, sineQuant_bounded,
    noiseQuant_bounded⟩
  intro w hw sps freq len att dec buf h pr hpr
  have hb := generateWith_ok_inv _ _ _ _ _ _ _ h
  subst hb
  rw [List.mem_map] at hpr
  obtain ⟨v, hv, rfl⟩ := hpr
  rw [List.mem_map] at hv
  obtain ⟨i, hiR, rfl⟩ := hv
  rw [List.mem_range] at hiR
  have hb2 := sampleVal_bound w hw (slenOf sps len) (msToSamples att sps)
    (msToSamples dec sps) (cyclesPerSample sps freq) i hiR
  rw [wrap16_eq_of_bounded (by omega) (by omega)]
  exact ⟨⟨hb2.1, hb2.2⟩, ⟨hb2.1, hb2.2⟩⟩

/-- Witness for C10 with the square oscillator on a concrete synthesis: the
left channel of frame 1 is within the amplitude bound. -/
theorem c10_amplitude_bound_witness :
    -16383 ≤ ((bufOf (generateWith squareQuant 1000 (Freq.real 500) 2 0 0)).getD
        1 (0, 0)).1 ∧
      ((bufOf (generateWith squareQuant 1000 (Freq.real 500) 2 0 0)).getD
        1 (0, 0)).1 ≤ 16383 := by
  have h := c10_amplitude_bound.1 squareQuant squareQuant_bounded 1000
    (Freq.real 500) 2 0 0 (bufOf (generateWith squareQuant 1000 (Freq.real 500) 2 0 0))
    (by rw [gen_eval_A]; rfl)
  refine (h _ ?_).1
  rw [gen_eval_A]
  decide
